import Mathlib

/-!
Shallow embedding of the `ProgressBar` Cython package
(`src/ProgressBar/ProgressBar.pyx`), which contains two near-identical
variants of the bar:

* variant A (the sequence-aware one, first half of the file): constructor
  accepting an int or an iterable, `__iter__`/`__next__`, `increment`,
  `value` getter/setter, `complete`, `__enter__`/`__exit__`, `__str__`;
* variant B (the integer-only one, second half of the file): constructor
  accepting an unsigned integer count, `increment`, `update`, `complete`,
  `__enter__`/`__exit__`, `__str__`.

Modelling conventions:

* C `double` wall-clock values and all float arithmetic are idealised as
  exact rationals (`ℚ`).  All concrete inputs used in the theorems below
  are exactly representable doubles on which the source's float
  arithmetic is exact, so the idealisation is faithful there.
* C `int` / `unsigned long` counters are idealised as unbounded `ℤ`
  (no claim in scope touches machine-width overflow); `unsigned`
  increment amounts are `ℕ`.
* Each method call observes a single clock instant `now : ℚ` standing
  for every `time.time()` read made during that call.
* Writes to standard output are recorded as a list of `Ev` events in the
  order they are emitted; the payload of an event records the numbers
  that are interpolated into the written string.
* A Python `ZeroDivisionError` raised inside `increment`'s `try` block is
  modelled by an explicit error branch that carries the state as already
  mutated at the raise point (Python mutations before the raise persist).
-/

/-- C cast of a real value to an integer (`<int>(...)` in the source):
truncation toward zero. -/
def ctrunc (q : ℚ) : ℤ := if q < 0 then ⌈q⌉ else ⌊q⌋

/-- Python float `%` (modulo) for the divisors used in the source:
`a % b = a - b * floor (a / b)` (result has the sign of the divisor). -/
def pymod (a b : ℚ) : ℚ := a - b * ⌊a / b⌋

/-- Round a rational to the nearest integer, ties to even — the rounding
CPython fixed-point string formatting applies to the (here: exact)
decimal value being formatted. -/
def roundHalfEven (q : ℚ) : ℤ :=
  if q - ⌊q⌋ < 1/2 then ⌊q⌋
  else if 1/2 < q - ⌊q⌋ then ⌊q⌋ + 1
  else if 2 ∣ ⌊q⌋ then ⌊q⌋ else ⌊q⌋ + 1

/-- Left-pad a digit string with zeros to the given width. -/
def padZeros (s : String) (w : ℕ) : String :=
  String.mk (List.replicate (w - s.length) '0') ++ s

/-- CPython fixed-point formatting `"%.{prec}f"` of a nonnegative exact
value: round to `prec` decimals (ties to even), print the integer part,
and for `prec > 0` a dot and exactly `prec` fractional digits.  Every
value formatted by the claims below is nonnegative. -/
def formatFixed (q : ℚ) (prec : ℕ) : String :=
  let n : ℤ := roundHalfEven (q * (10 : ℚ) ^ prec)
  if prec = 0 then toString n
  else
    let base : ℕ := 10 ^ prec
    let a : ℕ := n.natAbs
    let sign : String := if n < 0 then "-" else ""
    sign ++ toString (a / base) ++ "." ++ padZeros (toString (a % base)) prec

/-- The `TimeUnits` enum of the source. -/
inductive TimeUnit
  | ms
  | seconds
  | minutes
  | hours
  | days
  deriving DecidableEq

/-- `TimeUnits.<u>.value` in the source. -/
def TimeUnit.value : TimeUnit → ℚ
  | .ms => 1/1000
  | .seconds => 1
  | .minutes => 60
  | .hours => 60 ^ 2
  | .days => 24 * 60 ^ 2

/-- `TimeUnits.<u>.name` in the source. -/
def TimeUnit.name : TimeUnit → String
  | .ms => "ms"
  | .seconds => "seconds"
  | .minutes => "minutes"
  | .hours => "hours"
  | .days => "days"

/-- Iteration order of `for unit in TimeUnits`. -/
def timeUnitList : List TimeUnit :=
  [.ms, .seconds, .minutes, .hours, .days]

/-- The loop body of `__str__` (identical in both variants): state is the
mutable triple `(time_seconds, minutes, seconds)`; each early `return`
of the source is a terminating branch here, and falling off the loop
produces the final hour-prefixed string. -/
def durationLoop : List TimeUnit → ℚ → ℚ → ℚ → String
  | [], time_seconds, minutes, _seconds =>
      formatFixed |time_seconds| 0 ++ " " ++ formatFixed minutes 0 ++ " minutes"
  | u :: rest, time_seconds, minutes, seconds =>
      if time_seconds < TimeUnit.value .seconds then
        formatFixed (time_seconds / TimeUnit.value .ms) 0 ++ " " ++ TimeUnit.name .ms
      else if u.name = "ms" then
        durationLoop rest time_seconds minutes seconds
      else
        let time_seconds' := time_seconds / u.value
        if time_seconds' < TimeUnit.value .minutes then
          formatFixed seconds 2 ++ " " ++ u.name
        else if time_seconds' < TimeUnit.value .hours then
          formatFixed seconds 0 ++ " " ++ u.name
        else
          durationLoop rest time_seconds'
            |time_seconds' / TimeUnit.value .hours|
            |pymod time_seconds' (TimeUnit.value .hours)|

/-- `__str__` of both variants, as a function of `self.execution_time`:
initialises `minutes = fabs(t / 60)`, `seconds = fabs(t % 60)` and runs
the unit loop. -/
def durationString (t : ℚ) : String :=
  durationLoop timeUnitList t
    |t / TimeUnit.value .minutes|
    |pymod t (TimeUnit.value .minutes)|

/-- One write to standard output.  `throttled` is the carriage-return
line written inside the rate-limit branch of variant A's `increment`
(throughput, `int(progress / 2)` bar glyph count, percent, remaining
time, execution time); `finalLine` is the unconditional 100% line of
variant A's `increment`; `complete100` is the fully-filled 100% line of
variant A's `complete` and variant B's `update`; `throttledB` is the
rate-limited line of variant B's `increment` (glyph count, percent,
execution time, remaining time, 8 * transfer speed). -/
inductive Ev
  | titleLine (s : String)
  | initialBar
  | throttled (throughput : ℚ) (glyphs : ℤ) (pct : ℤ) (remaining exec : ℚ)
  | finalLine (throughput : ℚ) (glyphs : ℤ)
  | throttledB (glyphs : ℤ) (pct : ℤ) (exec remaining speed : ℚ)
  | complete100
  | newline
  | summary (s : String)
  deriving DecidableEq

/-- Events that overwrite the bar line in place (a carriage-return
write), i.e. one visible repaint of the bar. -/
def Ev.isRepaint : Ev → Bool
  | .throttled _ _ _ _ _ => true
  | .finalLine _ _ => true
  | .throttledB _ _ _ _ _ => true
  | .complete100 => true
  | _ => false

/-- Events emitted by the rate-limited branch (`now - last_print_time >
print_interval`) of variant A's `increment`, as opposed to its
unconditional completion render. -/
def Ev.isThrottled : Ev → Bool
  | .throttled _ _ _ _ _ => true
  | _ => false

/-- Number of visible repaints in an output trace. -/
def countRepaints (evs : List Ev) : ℕ := evs.countP (fun e => e.isRepaint)

/-- Number of rate-limit-gated repaints in an output trace. -/
def countThrottled (evs : List Ev) : ℕ := evs.countP (fun e => e.isThrottled)

/-- The fields of variant A's `ProgressBar` (`ProgressBar.pxd` first
part plus the Python-level `sequence` attribute), over an arbitrary
item type `α`.  `_index` is only ever `0` or incremented, hence `ℕ`. -/
structure BarA (α : Type) where
  title : String
  sequence : List α
  _index : ℕ
  num_jobs : ℤ
  start_time : ℚ
  end_time : ℚ
  execution_time : ℚ
  print_on_exit : Bool
  print_interval : ℚ
  _value : ℤ
  progress : ℤ
  errors : ℤ
  last_print_time : ℚ
  throughput : ℚ
  deriving DecidableEq

/-- Constructor argument of variant A: an `int` or an iterable. -/
inductive JobsArg (α : Type)
  | total (n : ℤ)
  | seq (xs : List α)

/-- Variant A `__init__`: derives `num_jobs` from the argument shape,
stores the sequence when given one, stamps `start_time` and
`last_print_time` with the construction instant, zeroes the counters,
prints the stripped title when non-empty, and prints the initial empty
bar when `num_jobs == -1`.  (C-level `double`/`int` fields the
constructor does not assign are zero-initialised.) -/
def mkBarA (jobs : JobsArg α) (title : String) (print_on_exit : Bool)
    (print_interval : ℚ) (now : ℚ) : BarA α × List Ev :=
  let numSeq : ℤ × List α :=
    match jobs with
    | .total n => (n, [])
    | .seq xs => ((xs.length : ℤ), xs)
  let st : BarA α :=
    { title := title.trim
      sequence := numSeq.2
      _index := 0
      num_jobs := numSeq.1
      start_time := now
      end_time := 0
      execution_time := 0
      print_on_exit := print_on_exit
      print_interval := print_interval
      _value := 0
      progress := 0
      errors := 0
      last_print_time := now
      throughput := 0 }
  (st,
    (if st.title ≠ "" then [Ev.titleLine st.title] else []) ++
      (if st.num_jobs = -1 then [Ev.initialBar] else []))

/-- The rate-limited block of variant A's `increment`: when `now -
last_print_time > print_interval`, stamp `last_print_time`, compute
`execution_time`, `remaining_time` and `throughput`, and write the
status line; otherwise no effect. -/
def throttleStepA (st : BarA α) (now : ℚ) : BarA α × List Ev :=
  if now - st.last_print_time > st.print_interval then
    ({ st with
        last_print_time := now
        execution_time := now - st.start_time
        throughput :=
          if now - st.start_time > 0 then
            (st._value : ℚ) / (now - st.start_time)
          else 0 },
      [Ev.throttled
        (if now - st.start_time > 0 then
            (st._value : ℚ) / (now - st.start_time)
          else 0)
        (ctrunc ((st.progress : ℚ) / 2)) st.progress
        (if st._value > 0 then
            (now - st.start_time) / (st._value : ℚ) *
              ((st.num_jobs : ℚ) - (st._value : ℚ))
          else 0)
        (now - st.start_time)])
  else (st, [])

/-- The unconditional completion block of variant A's `increment`: when
`_value == num_jobs`, write the 100% line and a blank `print`. -/
def finalStepA (st : BarA α) (evs : List Ev) : BarA α × List Ev :=
  if st._value = st.num_jobs then
    (st, evs ++
      [Ev.finalLine st.throughput (ctrunc ((st.progress : ℚ) / 2)), Ev.newline])
  else (st, evs)

/-- Variant A `increment`: resets a zero `start_time`, then runs the
`try` block — add the amount to `_value`, recompute `progress` (raising
`ZeroDivisionError` when `num_jobs == 0`), write the rate-limited
status line (`throttleStepA`), and write the unconditional 100% line
plus a blank `print` (`finalStepA`).  The `except` branch (first
conditional arm) keeps the mutations made before the raise —
`start_time` fix-up and the `_value` addition — increments `errors`,
and emits nothing. -/
def incrementA (st : BarA α) (now : ℚ) (inc : ℕ) : BarA α × List Ev :=
  if st.num_jobs = 0 then
    ({ st with
        start_time := if st.start_time = 0 then now else st.start_time
        _value := st._value + (inc : ℤ)
        errors := st.errors + 1 }, [])
  else
    let st2 : BarA α :=
      { st with
          start_time := if st.start_time = 0 then now else st.start_time
          _value := st._value + (inc : ℤ)
          progress :=
            ctrunc (((st._value + (inc : ℤ) : ℤ) : ℚ) / (st.num_jobs : ℚ) * 100) }
    finalStepA (throttleStepA st2 now).1 (throttleStepA st2 now).2

/-- Variant A `__next__`: while the cursor is inside the stored
sequence, fetch the item, advance the cursor, perform one
`increment(1)` and yield the item; otherwise `StopIteration`
(modelled as `none`). -/
def nextA (st : BarA α) (now : ℚ) : Option (α × BarA α × List Ev) :=
  if h : st._index < st.sequence.length then
    some (st.sequence.get ⟨st._index, h⟩,
      incrementA { st with _index := st._index + 1 } now 1)
  else none

/-- Variant A `value` setter: overwrite `_value`, no other effect. -/
def setValueA (st : BarA α) (new_value : ℤ) : BarA α :=
  { st with _value := new_value }

/-- Variant A `complete`: writes a fully-filled 100% line; it mutates no
field of the bar. -/
def completeA (st : BarA α) : BarA α × List Ev :=
  (st, [Ev.complete100])

/-- Variant A `__enter__`: restamp `start_time`. -/
def enterA (st : BarA α) (now : ℚ) : BarA α :=
  { st with start_time := now }

/-- Variant A `__exit__`: stamp `end_time`, compute `execution_time =
end_time - start_time`, print the duration summary when
`print_on_exit`, and return `exc_type is not None` — the boolean Python
uses to decide suppression of the in-flight exception (`true` means the
exception is swallowed). -/
def exitA (st : BarA α) (now : ℚ) (excPresent : Bool) :
    BarA α × List Ev × Bool :=
  let st1 := { st with end_time := now }
  let st2 := { st1 with execution_time := st1.end_time - st1.start_time }
  (st2,
    (if st2.print_on_exit then [Ev.summary (durationString st2.execution_time)]
      else []),
    excPresent)

/-- The fields of variant B's `ProgressBar` (`ProgressBar.pxd`, second
part).  `num_jobs` is declared `unsigned long` in the source; it is
idealised as `ℤ` like the other counters. -/
structure BarB where
  num_jobs : ℤ
  start_time : ℚ
  end_time : ℚ
  execution_time : ℚ
  print_on_exit : Bool
  print_interval : ℚ
  _value : ℤ
  progress : ℤ
  errors : ℤ
  last_print_time : ℚ
  deriving DecidableEq

/-- Variant B `__init__`: store the count and flags, zero the counters
and `last_print_time`, and print the initial empty bar when `num_jobs ==
-1`.  (`start_time` is not assigned: the C double is zero-initialised.) -/
def mkBarB (num_jobs : ℤ) (print_on_exit : Bool) (print_interval : ℚ) :
    BarB × List Ev :=
  let st : BarB :=
    { num_jobs := num_jobs
      start_time := 0
      end_time := 0
      execution_time := 0
      print_on_exit := print_on_exit
      print_interval := print_interval
      _value := 0
      progress := 0
      errors := 0
      last_print_time := 0 }
  (st, if st.num_jobs = -1 then [Ev.initialBar] else [])

/-- Variant B `update`: set `progress` to `_value` and write the
fully-filled 100% line followed by a blank `print`. -/
def updateB (st : BarB) : BarB × List Ev :=
  ({ st with progress := st._value }, [Ev.complete100, Ev.newline])

/-- Variant B `complete`: force `_value = num_jobs`, run `update`, and
print the duration summary when `print_on_exit`. -/
def completeB (st : BarB) : BarB × List Ev :=
  let upd := updateB { st with _value := st.num_jobs }
  (upd.1,
    upd.2 ++
      (if upd.1.print_on_exit then
        [Ev.summary (durationString upd.1.execution_time)]
      else []))

/-- Variant B `increment`: like variant A's up to the rate-limited
write (whose line has a different field layout, including `8 *
transfer_speed`), but the completion check is an `elif self.progress ==
self.num_jobs` that calls `complete()` — it runs only when the
rate-limit branch was not taken, and it compares the percentage
`progress` with `num_jobs`. -/
def incrementB (st : BarB) (now : ℚ) (inc : ℕ) : BarB × List Ev :=
  let st0 := if st.start_time = 0 then { st with start_time := now } else st
  let st1 := { st0 with _value := st0._value + (inc : ℤ) }
  if st1.num_jobs = 0 then
    ({ st1 with errors := st1.errors + 1 }, [])
  else
    let st2 := { st1 with
      progress := ctrunc ((st1._value : ℚ) / (st1.num_jobs : ℚ) * 100) }
    if now - st2.last_print_time > st2.print_interval then
      let exec := now - st2.start_time
      let remaining : ℚ :=
        if st2._value > 0 then
          exec / (st2._value : ℚ) * ((st2.num_jobs : ℚ) - (st2._value : ℚ))
        else 0
      let speed : ℚ := if exec > 0 then (st2._value : ℚ) / exec else 0
      let st3 := { st2 with last_print_time := now, execution_time := exec }
      (st3, [Ev.throttledB (ctrunc ((st3.progress : ℚ) / 2)) st3.progress
              exec remaining (8 * speed)])
    else if st2.progress = st2.num_jobs then
      completeB st2
    else (st2, [])

/-- Variant B `__enter__`: restamp `start_time`. -/
def enterB (st : BarB) (now : ℚ) : BarB :=
  { st with start_time := now }

/-- Variant B `__exit__`: stamp `end_time`, compute `execution_time`,
call `complete()`, and return `exc_type is not None` (the suppression
boolean handed back to the Python runtime). -/
def exitB (st : BarB) (now : ℚ) (excPresent : Bool) :
    BarB × List Ev × Bool :=
  let st1 := { st with end_time := now }
  let st2 := { st1 with execution_time := st1.end_time - st1.start_time }
  let cmp := completeB st2
  (cmp.1, cmp.2, excPresent)

/-- Summary events (the blue "Execution time: ..." print). -/
def Ev.isSummary : Ev → Bool
  | .summary _ => true
  | _ => false

/-- The unconditional 100% line of variant A's `increment`. -/
def Ev.isFinalLine : Ev → Bool
  | .finalLine _ _ => true
  | _ => false

/-- Number of duration summaries in an output trace. -/
def countSummaries (evs : List Ev) : ℕ := evs.countP (fun e => e.isSummary)

section IncrementLemmas

variable {α : Type} (st : BarA α) (now : ℚ) (inc : ℕ) (evs : List Ev)

lemma throttleStepA_value : ((throttleStepA st now).1)._value = st._value := by
  unfold throttleStepA; split_ifs <;> rfl

lemma throttleStepA_num_jobs :
    ((throttleStepA st now).1).num_jobs = st.num_jobs := by
  unfold throttleStepA; split_ifs <;> rfl

lemma throttleStepA_progress :
    ((throttleStepA st now).1).progress = st.progress := by
  unfold throttleStepA; split_ifs <;> rfl

lemma throttleStepA_print_interval :
    ((throttleStepA st now).1).print_interval = st.print_interval := by
  unfold throttleStepA; split_ifs <;> rfl

lemma throttleStepA_last_print :
    ((throttleStepA st now).1).last_print_time =
      if now - st.last_print_time > st.print_interval then now
      else st.last_print_time := by
  unfold throttleStepA; split_ifs <;> rfl

lemma throttleStepA_throughput :
    ((throttleStepA st now).1).throughput =
      if now - st.last_print_time > st.print_interval then
        (if now - st.start_time > 0 then (st._value : ℚ) / (now - st.start_time)
          else 0)
      else st.throughput := by
  unfold throttleStepA; split_ifs <;> rfl

lemma throttleStepA_out :
    (throttleStepA st now).2 =
      if now - st.last_print_time > st.print_interval then
        [Ev.throttled (if now - st.start_time > 0
              then (st._value : ℚ) / (now - st.start_time) else 0)
          (ctrunc ((st.progress : ℚ) / 2)) st.progress
          (if st._value > 0 then
              (now - st.start_time) / (st._value : ℚ) *
                ((st.num_jobs : ℚ) - (st._value : ℚ))
            else 0)
          (now - st.start_time)]
      else [] := by
  unfold throttleStepA; split_ifs <;> rfl

lemma finalStepA_state : (finalStepA st evs).1 = st := by
  unfold finalStepA; split_ifs <;> rfl

lemma finalStepA_out :
    (finalStepA st evs).2 =
      if st._value = st.num_jobs then
        evs ++ [Ev.finalLine st.throughput (ctrunc ((st.progress : ℚ) / 2)),
          Ev.newline]
      else evs := by
  unfold finalStepA; split_ifs <;> rfl

lemma incrementA_value_eq :
    ((incrementA st now inc).1)._value = st._value + (inc : ℤ) := by
  simp only [incrementA]
  split_ifs <;> simp [finalStepA_state, throttleStepA_value]

lemma incrementA_num_jobs_eq :
    ((incrementA st now inc).1).num_jobs = st.num_jobs := by
  simp only [incrementA]
  split_ifs <;> simp [finalStepA_state, throttleStepA_num_jobs]

lemma incrementA_print_interval_eq :
    ((incrementA st now inc).1).print_interval = st.print_interval := by
  simp only [incrementA]
  split_ifs <;> simp [finalStepA_state, throttleStepA_print_interval]

lemma incrementA_progress_eq :
    ((incrementA st now inc).1).progress =
      if st.num_jobs = 0 then st.progress
      else ctrunc (((st._value + (inc : ℤ) : ℤ) : ℚ) / (st.num_jobs : ℚ) * 100) := by
  simp only [incrementA]
  split_ifs <;> simp [finalStepA_state, throttleStepA_progress]

lemma throttleStepA_errors : ((throttleStepA st now).1).errors = st.errors := by
  unfold throttleStepA; split_ifs <;> rfl

lemma incrementA_errors_eq :
    ((incrementA st now inc).1).errors =
      if st.num_jobs = 0 then st.errors + 1 else st.errors := by
  by_cases h1 : st.num_jobs = 0 <;>
    simp [incrementA, h1, finalStepA_state, throttleStepA_errors]

lemma incrementA_last_print_eq :
    ((incrementA st now inc).1).last_print_time =
      if st.num_jobs ≠ 0 ∧ now - st.last_print_time > st.print_interval
        then now else st.last_print_time := by
  by_cases h1 : st.num_jobs = 0 <;>
    by_cases ht : now - st.last_print_time > st.print_interval <;>
      simp [incrementA, h1, ht, finalStepA_state, throttleStepA_last_print]

lemma incrementA_throttled_count :
    countThrottled (incrementA st now inc).2 =
      if st.num_jobs ≠ 0 ∧ now - st.last_print_time > st.print_interval
        then 1 else 0 := by
  by_cases h1 : st.num_jobs = 0 <;>
    by_cases ht : now - st.last_print_time > st.print_interval <;>
      by_cases hv : st._value + (inc : ℤ) = st.num_jobs <;>
        simp [incrementA, countThrottled, h1, ht, hv, finalStepA_out,
          throttleStepA_out, throttleStepA_value, throttleStepA_num_jobs,
          Ev.isThrottled]

lemma incrementA_final_count :
    ((incrementA st now inc).2).countP (fun e => e.isFinalLine) =
      if st.num_jobs ≠ 0 ∧ st._value + (inc : ℤ) = st.num_jobs
        then 1 else 0 := by
  by_cases h1 : st.num_jobs = 0 <;>
    by_cases hv : st._value + (inc : ℤ) = st.num_jobs <;>
      by_cases ht : now - st.last_print_time > st.print_interval <;>
        simp [incrementA, h1, hv, ht, finalStepA_out, throttleStepA_out,
          throttleStepA_value, throttleStepA_num_jobs, Ev.isFinalLine]

end IncrementLemmas

lemma ctrunc_of_nonneg {q : ℚ} (h : 0 ≤ q) : ctrunc q = ⌊q⌋ := by
  unfold ctrunc
  rw [if_neg (not_lt.2 h)]

/-- C6: for every state with `0 <= completed_units <= total_units` and
`total_units > 0`, after an `increment` the stored progress percent
equals `floor (completed_units / total_units * 100)` (where
`completed_units` is the value after the addition). -/
theorem increment_progress_is_floor {α : Type} (st : BarA α) (now : ℚ)
    (inc : ℕ) (h0 : 0 ≤ st._value + (inc : ℤ))
    (h1 : st._value + (inc : ℤ) ≤ st.num_jobs) (h2 : 0 < st.num_jobs) :
    ((incrementA st now inc).1).progress =
      ⌊((st._value + (inc : ℤ) : ℤ) : ℚ) / (st.num_jobs : ℚ) * 100⌋ := by
  rw [incrementA_progress_eq, if_neg h2.ne']
  apply ctrunc_of_nonneg
  have hv : (0 : ℚ) ≤ ((st._value + (inc : ℤ) : ℤ) : ℚ) := by exact_mod_cast h0
  have hn : (0 : ℚ) < (st.num_jobs : ℚ) := by exact_mod_cast h2
  have := div_nonneg hv hn.le
  linarith

/-- Witness for C6 at a concrete input: a bar over 3 jobs, one
`increment(1)` from 0 completed. -/
theorem increment_progress_is_floor_witness :
    ((incrementA ((mkBarA (α := ℤ) (.total 3) "" true (1/10) 0).1) 1 1).1).progress =
      ⌊((((mkBarA (α := ℤ) (.total 3) "" true (1/10) 0).1)._value + ((1 : ℕ) : ℤ) : ℤ) : ℚ) /
          ((((mkBarA (α := ℤ) (.total 3) "" true (1/10) 0).1).num_jobs : ℤ) : ℚ) * 100⌋ :=
  increment_progress_is_floor _ 1 1 (by decide) (by decide) (by decide)

/-- C4: an `increment` call on a bar whose `total_units` is zero counts
exactly one error, computes no percent and no throughput, emits
nothing, and returns normally (the division failure is caught inside
`increment` and never propagated). -/
theorem increment_zero_total_counts_error {α : Type} (st : BarA α) (now : ℚ)
    (inc : ℕ) (h : st.num_jobs = 0) :
    ((incrementA st now inc).1).errors = st.errors + 1 ∧
    ((incrementA st now inc).1).progress = st.progress ∧
    ((incrementA st now inc).1).throughput = st.throughput ∧
    (incrementA st now inc).2 = [] := by
  simp [incrementA, h]

/-- Witness for C4: a bar constructed with total 0. -/
theorem increment_zero_total_counts_error_witness :
    (((incrementA ((mkBarA (α := ℤ) (.total 0) "" true (1/10) 0).1) 1 1).1).errors =
        ((mkBarA (α := ℤ) (.total 0) "" true (1/10) 0).1).errors + 1) ∧
    (((incrementA ((mkBarA (α := ℤ) (.total 0) "" true (1/10) 0).1) 1 1).1).progress =
        ((mkBarA (α := ℤ) (.total 0) "" true (1/10) 0).1).progress) ∧
    (((incrementA ((mkBarA (α := ℤ) (.total 0) "" true (1/10) 0).1) 1 1).1).throughput =
        ((mkBarA (α := ℤ) (.total 0) "" true (1/10) 0).1).throughput) ∧
    (incrementA ((mkBarA (α := ℤ) (.total 0) "" true (1/10) 0).1) 1 1).2 = [] :=
  increment_zero_total_counts_error _ 1 1 (by decide)

/-- C10: on a zero-total bar the `_value` addition still happens — it
precedes the failing division, so the caught error cycle updates the
counter (and the `start_time` fix-up) but nothing else. -/
theorem increment_zero_total_still_adds {α : Type} (st : BarA α) (now : ℚ)
    (inc : ℕ) (h : st.num_jobs = 0) :
    (incrementA st now inc).1 =
      { st with
          start_time := if st.start_time = 0 then now else st.start_time
          _value := st._value + (inc : ℤ)
          errors := st.errors + 1 } ∧
    (incrementA st now inc).2 = [] := by
  simp [incrementA, h]

/-- Witness for C10: a zero-total bar at `_value = 4`, incremented
by 2. -/
theorem increment_zero_total_still_adds_witness :
    (incrementA (setValueA ((mkBarA (α := ℤ) (.total 0) "" true (1/10) 0).1) 4) 1 2).1 =
      { setValueA ((mkBarA (α := ℤ) (.total 0) "" true (1/10) 0).1) 4 with
          start_time :=
            if (setValueA ((mkBarA (α := ℤ) (.total 0) "" true (1/10) 0).1) 4).start_time = 0
              then 1
              else (setValueA ((mkBarA (α := ℤ) (.total 0) "" true (1/10) 0).1) 4).start_time
          _value := (setValueA ((mkBarA (α := ℤ) (.total 0) "" true (1/10) 0).1) 4)._value + ((2 : ℕ) : ℤ)
          errors := (setValueA ((mkBarA (α := ℤ) (.total 0) "" true (1/10) 0).1) 4).errors + 1 } ∧
    (incrementA (setValueA ((mkBarA (α := ℤ) (.total 0) "" true (1/10) 0).1) 4) 1 2).2 = [] :=
  increment_zero_total_still_adds _ 1 2 (by decide)

/-- C1: on every exit of the scoped region, in both variants,
`end_time` is stamped, `execution_time = end_time - start_time` is
computed, and the summary is printed exactly once when configured (in
variant B via the `complete()` call, whose summary is also gated on
`print_on_exit`).  However the value `__exit__` hands back to the
Python runtime is `exc_type is not None`: it is `true` exactly when the
wrapped body raised, so a pending exception is suppressed, not
re-signalled — the last clause of the claim fails on the code. -/
theorem exit_behavior {α : Type} (st : BarA α) (stB : BarB) (now : ℚ)
    (exc excB : Bool) :
    ((exitA st now exc).1).end_time = now ∧
    ((exitA st now exc).1).execution_time = now - st.start_time ∧
    countSummaries (exitA st now exc).2.1 =
      (if st.print_on_exit then 1 else 0) ∧
    (exitA st now exc).2.2 = exc ∧
    ((exitB stB now excB).1).end_time = now ∧
    ((exitB stB now excB).1).execution_time = now - stB.start_time ∧
    countSummaries (exitB stB now excB).2.1 =
      (if stB.print_on_exit then 1 else 0) ∧
    (exitB stB now excB).2.2 = excB := by
  by_cases hA : st.print_on_exit <;> by_cases hB : stB.print_on_exit <;>
    simp [exitA, exitB, completeB, updateB, countSummaries, Ev.isSummary,
      hA, hB]

/-- C3 counterexample: in the sequence-aware variant, `complete()` does
not force `completed_units` to `total_units` — on a 5-job bar whose
current value is 3 it writes the 100% line but leaves `_value = 3`. -/
theorem completeA_leaves_value :
    ((completeA (setValueA ((mkBarA (α := ℤ) (.total 5) "" true (1/10) 0).1) 3)).1)._value = 3 ∧
    ((completeA (setValueA ((mkBarA (α := ℤ) (.total 5) "" true (1/10) 0).1) 3)).1).num_jobs = 5 ∧
    ¬ ((completeA (setValueA ((mkBarA (α := ℤ) (.total 5) "" true (1/10) 0).1) 3)).1)._value =
        ((completeA (setValueA ((mkBarA (α := ℤ) (.total 5) "" true (1/10) 0).1) 3)).1).num_jobs := by
  decide

/-- C3 as amended: in the integer-only variant, `complete()` forces
`completed_units = total_units`, triggers the 100% render (the
fully-filled line written by `update`, followed by the blank `print`
and — when `print_on_exit` is set — the duration summary), and is
idempotent — a second call returns the identical state; in the
sequence-aware variant, `complete()` renders a 100% line and leaves the
whole state unchanged (hence trivially idempotent on
`completed_units`). -/
theorem complete_amended {α : Type} (st : BarA α) (stB : BarB) :
    (completeA st).1 = st ∧
    (completeA st).2 = [Ev.complete100] ∧
    ((completeB stB).1)._value = stB.num_jobs ∧
    (completeB stB).2 =
      [Ev.complete100, Ev.newline] ++
        (if stB.print_on_exit then
          [Ev.summary (durationString stB.execution_time)]
        else []) ∧
    0 < countRepaints (completeB stB).2 ∧
    (completeB ((completeB stB).1)).1 = (completeB stB).1 := by
  refine ⟨rfl, rfl, ?_, ?_, ?_, ?_⟩
  · simp [completeB, updateB]
  · by_cases hp : stB.print_on_exit <;> simp [completeB, updateB, hp]
  · by_cases hp : stB.print_on_exit <;>
      simp [completeB, updateB, countRepaints, Ev.isRepaint, hp]
  · cases stB <;> simp [completeB, updateB]

/-- C9 counterexample: the `value` setter overwrites `completed_units`
with any supplied integer, so assigning `-1` to a freshly constructed
bar breaks `completed_units >= 0`. -/
theorem value_setter_breaks_nonneg :
    0 ≤ ((mkBarA (α := ℤ) (.total 5) "" true (1/10) 0).1)._value ∧
    (setValueA ((mkBarA (α := ℤ) (.total 5) "" true (1/10) 0).1) (-1))._value < 0 := by
  decide

/-- C9 as amended: construction, `increment` with an unsigned amount,
`complete`, and scoped enter/exit preserve `completed_units >= 0`; the
`value` setter sets `completed_units` to exactly the assigned integer,
so it preserves nonnegativity precisely when the assigned value is
nonnegative. -/
theorem nonneg_value_amended {α : Type} (jobs : JobsArg α) (ti : String)
    (p exc : Bool) (iv t0 t1 : ℚ) (st : BarA α) (inc : ℕ) (nv : ℤ)
    (h : 0 ≤ st._value) (hnv : 0 ≤ nv) :
    0 ≤ ((mkBarA jobs ti p iv t0).1)._value ∧
    0 ≤ ((incrementA st t1 inc).1)._value ∧
    (setValueA st nv)._value = nv ∧
    0 ≤ (setValueA st nv)._value ∧
    0 ≤ ((completeA st).1)._value ∧
    0 ≤ (enterA st t1)._value ∧
    0 ≤ ((exitA st t1 exc).1)._value := by
  refine ⟨?_, ?_, rfl, hnv, h, h, h⟩
  · simp [mkBarA]
  · rw [incrementA_value_eq]
    have : (0 : ℤ) ≤ (inc : ℤ) := Int.ofNat_nonneg inc
    omega

/-- Witness for C9's amended theorem at a concrete input: a 2-job bar
with `completed_units = 0`, incremented at time 1, assigned value 7. -/
theorem nonneg_value_amended_witness :
    0 ≤ ((mkBarA (α := ℤ) (.total 2) "t" true (1/10) 0).1)._value ∧
    0 ≤ ((incrementA ((mkBarA (α := ℤ) (.total 2) "" false (1/10) 0).1) 1 1).1)._value ∧
    (setValueA ((mkBarA (α := ℤ) (.total 2) "" false (1/10) 0).1) 7)._value = 7 ∧
    0 ≤ (setValueA ((mkBarA (α := ℤ) (.total 2) "" false (1/10) 0).1) 7)._value ∧
    0 ≤ ((completeA ((mkBarA (α := ℤ) (.total 2) "" false (1/10) 0).1)).1)._value ∧
    0 ≤ (enterA ((mkBarA (α := ℤ) (.total 2) "" false (1/10) 0).1) 1)._value ∧
    0 ≤ ((exitA ((mkBarA (α := ℤ) (.total 2) "" false (1/10) 0).1) 1 true).1)._value :=
  nonneg_value_amended (.total 2) "t" true true (1/10) 0 1 _ 1 7
    (by decide) (by decide)

/-- C7: during an `increment` that takes the rate-limited render branch
(on a bar whose total is nonzero, so no division error), the rendered
metrics are: `throughput = completed_units / elapsed` when
`elapsed > 0` and `0` otherwise, and `eta = (elapsed / completed_units)
* (total_units - completed_units)` when `completed_units > 0` and `0`
otherwise, where `elapsed = now - start_time` (with `start_time` first
reset to `now` if it was zero) and `completed_units` is the value after
the addition. -/
theorem increment_render_metrics {α : Type} (st : BarA α) (now : ℚ)
    (inc : ℕ) (hn : st.num_jobs ≠ 0)
    (ht : now - st.last_print_time > st.print_interval) :
    let elapsed := now - (if st.start_time = 0 then now else st.start_time)
    let v : ℚ := ((st._value + (inc : ℤ) : ℤ) : ℚ)
    let pct := ctrunc (v / (st.num_jobs : ℚ) * 100)
    let thr : ℚ := if elapsed > 0 then v / elapsed else 0
    let eta : ℚ :=
      if st._value + (inc : ℤ) > 0 then
        elapsed / v * ((st.num_jobs : ℚ) - v)
      else 0
    ((incrementA st now inc).1).throughput = thr ∧
    ((incrementA st now inc).2).head? =
      some (Ev.throttled thr (ctrunc ((pct : ℚ) / 2)) pct eta elapsed) := by
  by_cases hv : st._value + (inc : ℤ) = st.num_jobs <;>
    simp [incrementA, hn, ht, hv, finalStepA_state, finalStepA_out,
      throttleStepA_throughput, throttleStepA_out, throttleStepA_value,
      throttleStepA_num_jobs, throttleStepA_progress]

/-- Witness for C7: a 4-job bar constructed at time 1 and incremented at
time 3 — elapsed 2, throughput 1/2, eta 6, percent 25. -/
theorem increment_render_metrics_witness :
    ((incrementA ((mkBarA (α := ℤ) (.total 4) "" true (1/10) 1).1) 3 1).1).throughput = 1/2 ∧
    ((incrementA ((mkBarA (α := ℤ) (.total 4) "" true (1/10) 1).1) 3 1).2).head? =
      some (Ev.throttled (1/2) 12 25 6 2) := by
  have h := increment_render_metrics ((mkBarA (α := ℤ) (.total 4) "" true (1/10) 1).1) 3 1
    (by decide) (by norm_num [mkBarA])
  revert h
  norm_num [mkBarA, ctrunc]

lemma incrementA_repaint_count {α : Type} (st : BarA α) (now : ℚ) (inc : ℕ) :
    countRepaints (incrementA st now inc).2 =
      countThrottled (incrementA st now inc).2 +
      ((incrementA st now inc).2).countP (fun e => e.isFinalLine) := by
  by_cases h1 : st.num_jobs = 0 <;>
    by_cases ht : now - st.last_print_time > st.print_interval <;>
      by_cases hv : st._value + (inc : ℤ) = st.num_jobs <;>
        simp [incrementA, countRepaints, countThrottled, h1, ht, hv,
          finalStepA_out, throttleStepA_out, throttleStepA_value,
          throttleStepA_num_jobs, Ev.isRepaint, Ev.isThrottled, Ev.isFinalLine]

/-- C5 counterexample: on a 2-job bar with a 10-second interval
(constructed at time 0), an `increment` at time 20 repaints via the
rate-limit branch, and a second `increment` at time 25 — only 5 seconds
later, within the interval — reaches `completed == total` and repaints
again: two visible repaints for two calls separated by less than the
interval. -/
theorem throttle_two_repaints_in_interval :
    ((25 : ℚ) - 20 < ((mkBarA (α := ℤ) (.total 2) "" true 10 0).1).print_interval) ∧
    1 < countRepaints (incrementA ((mkBarA (α := ℤ) (.total 2) "" true 10 0).1) 20 1).2 +
          countRepaints
            (incrementA (incrementA ((mkBarA (α := ℤ) (.total 2) "" true 10 0).1) 20 1).1 25 1).2 := by
  constructor
  · norm_num [mkBarA]
  · rw [incrementA_repaint_count, incrementA_repaint_count,
      incrementA_throttled_count, incrementA_throttled_count,
      incrementA_final_count, incrementA_final_count,
      incrementA_num_jobs_eq, incrementA_value_eq,
      incrementA_last_print_eq, incrementA_print_interval_eq]
    norm_num [mkBarA]

/-- C5 as amended: two `increment` calls whose observed times are
separated by less than the interval produce at most one rate-limit-gated
repaint between them; the unconditional completion render is exempt
from the throttle: a call whose addition makes `completed_units` reach
a nonzero `total_units` always emits exactly one completion line,
regardless of the interval. -/
theorem throttle_amended {α : Type} (st : BarA α) (t1 t2 : ℚ) (i1 i2 : ℕ)
    (hgap : t2 - t1 < st.print_interval) :
    countThrottled (incrementA st t1 i1).2 +
      countThrottled (incrementA (incrementA st t1 i1).1 t2 i2).2 ≤ 1 ∧
    (st.num_jobs ≠ 0 →
      ((incrementA st t1 i1).1)._value + (i2 : ℤ) = st.num_jobs →
      ((incrementA (incrementA st t1 i1).1 t2 i2).2).countP
        (fun e => e.isFinalLine) = 1) := by
  constructor
  · rw [incrementA_throttled_count, incrementA_throttled_count,
      incrementA_num_jobs_eq, incrementA_last_print_eq,
      incrementA_print_interval_eq]
    split_ifs with hA hB hC <;> try norm_num
    · exact absurd hB.2 (by linarith)
  · intro hn hveq
    rw [incrementA_value_eq] at hveq
    rw [incrementA_final_count, incrementA_num_jobs_eq, incrementA_value_eq]
    rw [if_pos ⟨hn, hveq⟩]

/-- Witness for C5's amended theorem: the concrete scenario of the
counterexample — at most one throttled line across the two calls, and
the completing second call emits exactly one completion line. -/
theorem throttle_amended_witness :
    countThrottled (incrementA ((mkBarA (α := ℤ) (.total 2) "" true 10 0).1) 20 1).2 +
      countThrottled
        (incrementA (incrementA ((mkBarA (α := ℤ) (.total 2) "" true 10 0).1) 20 1).1 25 1).2 ≤ 1 ∧
    (((mkBarA (α := ℤ) (.total 2) "" true 10 0).1).num_jobs ≠ 0 →
      ((incrementA ((mkBarA (α := ℤ) (.total 2) "" true 10 0).1) 20 1).1)._value + ((1 : ℕ) : ℤ) =
        ((mkBarA (α := ℤ) (.total 2) "" true 10 0).1).num_jobs →
      ((incrementA (incrementA ((mkBarA (α := ℤ) (.total 2) "" true 10 0).1) 20 1).1 25 1).2).countP
        (fun e => e.isFinalLine) = 1) :=
  throttle_amended ((mkBarA (α := ℤ) (.total 2) "" true 10 0).1) 20 25 1 1
    (by norm_num [mkBarA])

/-- Pull repeatedly from the iterator (up to `fuel` pulls), collecting
the yielded items and the final state — the model of a `for` loop over
the bar. -/
def drainA {α : Type} (now : ℚ) : ℕ → BarA α → List α × BarA α
  | 0, st => ([], st)
  | fuel + 1, st =>
    match nextA st now with
    | none => ([], st)
    | some (x, st', _evs) =>
      ((drainA now fuel st').1.cons x, (drainA now fuel st').2)

/-- C8: constructing from an n-item sequence sets `total_units = n`;
every pull with the cursor inside the sequence yields the item at the
cursor, advances the cursor, and performs exactly one `increment(1)`;
concretely, iterating a 5-item sequence to exhaustion yields all five
items in order, leaves `completed_units = 5` after the five increments
(with no errors), and the sixth pull signals end-of-sequence. -/
theorem iteration_adapter_spec :
    (∀ (α : Type) (xs : List α) (ti : String) (p : Bool) (iv t0 : ℚ),
      ((mkBarA (.seq xs) ti p iv t0).1).num_jobs = (xs.length : ℤ)) ∧
    (∀ (α : Type) (st : BarA α) (now : ℚ) (d : α),
      st._index < st.sequence.length →
      nextA st now = some (st.sequence.getD st._index d,
        incrementA { st with _index := st._index + 1 } now 1)) ∧
    ((drainA 0 6 ((mkBarA (α := ℤ) (.seq [10, 20, 30, 40, 50]) "" true (1/10) 0).1)).1 =
        [10, 20, 30, 40, 50] ∧
      ((drainA 0 6 ((mkBarA (α := ℤ) (.seq [10, 20, 30, 40, 50]) "" true (1/10) 0).1)).2)._value = 5 ∧
      ((drainA 0 6 ((mkBarA (α := ℤ) (.seq [10, 20, 30, 40, 50]) "" true (1/10) 0).1)).2)._index = 5 ∧
      ((drainA 0 6 ((mkBarA (α := ℤ) (.seq [10, 20, 30, 40, 50]) "" true (1/10) 0).1)).2).errors = 0 ∧
      nextA ((drainA 0 6 ((mkBarA (α := ℤ) (.seq [10, 20, 30, 40, 50]) "" true (1/10) 0).1)).2) 0 =
        none) := by
  refine ⟨?_, ?_, ?_⟩
  · intro α xs ti p iv t0
    simp [mkBarA]
  · intro α st now d h
    simp [nextA, h, List.getD_eq_getElem, List.get_eq_getElem]
  · norm_num [drainA, nextA, mkBarA, incrementA, throttleStepA, finalStepA]

/-- Witness for C8 at a concrete input: pulling once from a fresh
two-item bar yields the first item and the singly-incremented state. -/
theorem iteration_adapter_spec_witness :
    nextA ((mkBarA (α := ℤ) (.seq [7, 9]) "" true (1/10) 0).1) 0 =
      some ((((mkBarA (α := ℤ) (.seq [7, 9]) "" true (1/10) 0).1).sequence).getD
          (((mkBarA (α := ℤ) (.seq [7, 9]) "" true (1/10) 0).1)._index) 0,
        incrementA
          { (mkBarA (α := ℤ) (.seq [7, 9]) "" true (1/10) 0).1 with
              _index := ((mkBarA (α := ℤ) (.seq [7, 9]) "" true (1/10) 0).1)._index + 1 }
          0 1) :=
  iteration_adapter_spec.2.1 ℤ ((mkBarA (α := ℤ) (.seq [7, 9]) "" true (1/10) 0).1) 0 0
    (by decide)

lemma pymod_nonneg {a b : ℚ} (hb : 0 < b) : 0 ≤ pymod a b := by
  unfold pymod
  have h1 : b * (⌊a / b⌋ : ℚ) ≤ b * (a / b) :=
    mul_le_mul_of_nonneg_left (Int.floor_le _) hb.le
  have h2 : b * (a / b) = a := by field_simp
  linarith

lemma pymod_eq_self {a b : ℚ} (hb : 0 < b) (h0 : 0 ≤ a) (h1 : a < b) :
    pymod a b = a := by
  unfold pymod
  have hf : ⌊a / b⌋ = 0 := by
    rw [Int.floor_eq_zero_iff]
    exact ⟨div_nonneg h0 hb.le, (div_lt_one hb).mpr h1⟩
  simp [hf]

/-- C2 counterexample: at 90 seconds the duration formatter prints
"30 seconds" — the unit word is `seconds` (the enum member reached on
that loop pass), not `minutes`, and the precision is 0 decimals; at
3700 seconds it prints "100 minutes" (the seconds-within-the-hour
count), not an hour-prefixed pair. -/
theorem duration_format_counterexample :
    durationString 90 = "30 seconds" ∧
    "30 seconds" ≠ "30 minutes" ∧
    "30 seconds" ≠ "30.00 minutes" ∧
    durationString 3700 = "100 minutes" ∧
    "100 minutes" ≠ "1 02 minutes" := by
  have l90 : durationString 90 = formatFixed |pymod (90:ℚ) 60| 0 ++ " seconds" := by
    norm_num [durationString, timeUnitList, durationLoop, TimeUnit.value,
      TimeUnit.name]
    simp
    rw [String.append_assoc]; rfl
  have m90 : |pymod (90:ℚ) 60| = 30 := by norm_num [pymod]
  have f30 : formatFixed 30 0 = "30" := by
    norm_num [formatFixed, roundHalfEven]
    decide
  have l3700 : durationString 3700 =
      formatFixed |pymod ((3700:ℚ)/1) 3600| 0 ++ " minutes" := by
    norm_num [durationString, timeUnitList, durationLoop, TimeUnit.value,
      TimeUnit.name]
    simp
    rw [String.append_assoc]; rfl
  have m3700 : |pymod ((3700:ℚ)/1) 3600| = 100 := by norm_num [pymod]
  have f100 : formatFixed 100 0 = "100" := by
    norm_num [formatFixed, roundHalfEven]
    decide
  refine ⟨?_, by decide, by decide, ?_, by decide⟩
  · rw [l90, m90, f30]; decide
  · rw [l3700, m3700, f100]; decide

/-- C2 as amended: for nonnegative durations the formatter maps
`t < 1` to the integer-millisecond form with unit word `ms`;
`1 <= t < 60` to `t` at 2 decimals with unit word `seconds`;
`60 <= t < 3600` to the seconds-within-the-minute (`t mod 60`) at 0
decimals, still with unit word `seconds` (not `minutes`); and
`3600 <= t < 216000` to the seconds-within-the-hour (`t mod 3600`) at 0
decimals with unit word `minutes`, with no hour-count prefix. -/
theorem duration_format_amended (t : ℚ) :
    (0 ≤ t → t < 1 →
      durationString t = formatFixed (t * 1000) 0 ++ " ms") ∧
    (1 ≤ t → t < 60 →
      durationString t = formatFixed t 2 ++ " seconds") ∧
    (60 ≤ t → t < 3600 →
      durationString t = formatFixed (pymod t 60) 0 ++ " seconds") ∧
    (3600 ≤ t → t < 216000 →
      durationString t = formatFixed (pymod t 3600) 0 ++ " minutes") := by
  refine ⟨?_, ?_, ?_, ?_⟩
  · intro h0 h1
    have e : t / ((1 : ℚ)/1000) = t * 1000 := by
      rw [div_div_eq_mul_div, div_one]
    simp [durationString, timeUnitList, durationLoop, TimeUnit.value,
      TimeUnit.name, h1, e]
    rw [String.append_assoc]; rfl
  · intro ha hb
    have h1 : ¬ t < 1 := by linarith
    simp [durationString, timeUnitList, durationLoop, TimeUnit.value,
      TimeUnit.name, h1, hb]
    rw [abs_of_nonneg (pymod_nonneg (by norm_num)),
      pymod_eq_self (by norm_num) (by linarith) hb]
    rw [String.append_assoc]; rfl
  · intro ha hb
    have h1 : ¬ t < 1 := by linarith
    have h2 : ¬ t < 60 := by linarith
    simp [durationString, timeUnitList, durationLoop, TimeUnit.value,
      TimeUnit.name, h1, h2, hb, show ((60:ℚ)^2) = 3600 from by norm_num]
    rw [abs_of_nonneg (pymod_nonneg (by norm_num))]
    rw [String.append_assoc]; rfl
  · intro ha hb
    have h1 : ¬ t < 1 := by linarith
    have h2 : ¬ t < 60 := by linarith
    have h3 : ¬ t < 3600 := by linarith
    have h4 : ¬ (t / 60 < 60) := by
      rw [not_lt, le_div_iff₀ (show (0:ℚ) < 60 by norm_num)]
      linarith
    have h5 : t / 60 < 3600 := by
      rw [div_lt_iff₀ (show (0:ℚ) < 60 by norm_num)]
      linarith
    simp [durationString, timeUnitList, durationLoop, TimeUnit.value,
      TimeUnit.name, h1, h2, h3, h4, h5,
      show ((60:ℚ)^2) = 3600 from by norm_num]
    rw [abs_of_nonneg (pymod_nonneg (by norm_num))]
    rw [String.append_assoc]; rfl

/-- Witness for C2's amended theorem at `t = 90`: the quirky regime,
where the formatter prints the seconds-within-the-minute with the unit
word `seconds`. -/
theorem duration_format_amended_witness :
    durationString 90 = formatFixed (pymod 90 60) 0 ++ " seconds" :=
  (duration_format_amended 90).2.2.1 (by norm_num) (by norm_num)
